import Mathlib

/-!
Shallow embedding of the aicare-gemma-3-api core subsystems:
the token-bucket rate limiter (`app/security/rate_limiter.py`) and the
dialogue orchestration pipeline (`app/services/conversation.py`,
`app/services/openaudio.py`, `app/schemas/generation.py`).

Python floats are modelled by exact rationals (`ℚ`); Python dicts by
association lists or by functions into `Option`; raised exceptions by
`Except`; the metrics side effects by explicit event lists in the result.
-/

namespace RateLimiter

/-- One `_TokenBucket` record: remaining allowance and refill timestamp. -/
structure Bucket where
  tokens : ℚ
  last_refill : ℚ
deriving DecidableEq

/-- The immutable configuration a `RateLimiter` instance carries after
`__init__`: `enabled`, `_capacity`, `_refill_rate`, `_bucket_ttl`. -/
structure Config where
  enabled : Bool
  capacity : ℚ
  refillRate : ℚ
  bucketTTL : ℚ
deriving DecidableEq

/-- `RateLimiter.__init__` for a positive window: `capacity =
max 1 (requests * burst)`, `refill_rate = capacity / window`,
`bucket_ttl = window * 5`.  (The `window ≤ 0` branch of the source sets an
infinite refill rate, which has no rational counterpart; every claim here
assumes a positive window.) -/
def mkRateLimiter (enabled : Bool) (requests burst window : ℚ) : Config :=
  let cap : ℚ := max 1 (requests * burst)
  { enabled := enabled
    capacity := cap
    refillRate := cap / window
    bucketTTL := window * 5 }

/-- The bucket map `self._buckets`, keyed by the bucket-key string. -/
def Buckets : Type := String → Option Bucket

/-- The empty bucket map a fresh limiter starts with. -/
def emptyBuckets : Buckets := fun _ => none

/-- `bucket_key = f"{scope}:{identifier}"`. -/
def bucket_key (scope identifier : String) : String :=
  scope ++ ":" ++ identifier

/-- The lookup-or-create-then-refill step at the top of `acquire`'s locked
section: a missing bucket is seeded at full capacity, an existing bucket is
refilled by `min(capacity, tokens + elapsed * refill_rate)` with
`elapsed = max 0 (now - last_refill)`, and `last_refill` is set to `now`. -/
def refillBucket (cfg : Config) (now : ℚ) (existing : Option Bucket) : Bucket :=
  match existing with
  | none => { tokens := cfg.capacity, last_refill := now }
  | some b =>
      let elapsed : ℚ := max 0 (now - b.last_refill)
      { tokens := min cfg.capacity (b.tokens + elapsed * cfg.refillRate)
        last_refill := now }

/-- `allowed = bucket.tokens >= 1.0`, evaluated on the refilled bucket. -/
def admitted (cfg : Config) (now : ℚ) (existing : Option Bucket) : Bool :=
  decide (1 ≤ (refillBucket cfg now existing).tokens)

/-- The bucket stored back into the map: one token subtracted when the call
was admitted, otherwise the refilled bucket unchanged. -/
def postBucket (cfg : Config) (now : ℚ) (existing : Option Bucket) : Bucket :=
  let refilled := refillBucket cfg now existing
  if admitted cfg now existing then
    { refilled with tokens := refilled.tokens - 1 }
  else refilled

/-- `_cleanup_locked`: drop every bucket whose `last_refill` is strictly
older than `_bucket_ttl`; a non-positive TTL disables the sweep. -/
def cleanup_locked (cfg : Config) (now : ℚ) (buckets : Buckets) : Buckets :=
  if cfg.bucketTTL ≤ 0 then buckets
  else fun k =>
    match buckets k with
    | some b => if cfg.bucketTTL < now - b.last_refill then none else some b
    | none => none

/-- The `(allowed, retry_after)` pair together with the successor bucket map. -/
structure AcquireResult where
  allowed : Bool
  retryAfter : ℚ
  state : Buckets

/-- `RateLimiter.acquire`: fail-open when disabled or capacity ≤ 0;
otherwise refill, admit iff at least one token, subtract on admission,
store the bucket, sweep expired buckets, and compute `retry_after =
max 0 ((1 - tokens) / refill_rate)` on rejection (0 for a non-positive
rate). -/
def acquire (cfg : Config) (buckets : Buckets) (identifier scope : String)
    (now : ℚ) : AcquireResult :=
  if cfg.enabled = false ∨ cfg.capacity ≤ 0 then
    { allowed := true, retryAfter := 0, state := buckets }
  else
    let key := bucket_key scope identifier
    let existing := buckets key
    let bucket' := postBucket cfg now existing
    let state' := cleanup_locked cfg now
      (fun k => if k = key then some bucket' else buckets k)
    let retry : ℚ :=
      if admitted cfg now existing then 0
      else if 0 < cfg.refillRate then
        max 0 ((1 - bucket'.tokens) / cfg.refillRate)
      else 0
    { allowed := admitted cfg now existing, retryAfter := retry, state := state' }

/-- Iterated `acquire` on one key with a fixed clock reading. -/
def acquireIter (cfg : Config) (identifier scope : String) (now : ℚ)
    (m : Buckets) : Nat → Buckets
  | 0 => m
  | n + 1 => (acquire cfg (acquireIter cfg identifier scope now m n)
      identifier scope now).state

/-- Bucket maps reachable from the empty map by `acquire` calls. -/
inductive Reachable (cfg : Config) : Buckets → Prop
  | empty : Reachable cfg emptyBuckets
  | step (m : Buckets) (identifier scope : String) (now : ℚ) :
      Reachable cfg m →
      Reachable cfg (acquire cfg m identifier scope now).state

end RateLimiter

namespace Conversation

/-- A Python value as it can appear in a caller-supplied override bag:
a number (ints and floats collapse onto `ℚ`, with `den = 1` marking
integral values), a string, or a list of strings.  `Option PyVal` adds the
`None` case. -/
inductive PyVal where
  | num (q : ℚ)
  | str (s : String)
  | strList (xs : List String)
deriving DecidableEq

/-- A caller-supplied override bag (a Python dict of optional values). -/
abbrev Overrides : Type := List (String × Option PyVal)

/-- Field-wise validation of `GenerationRequest` (`app/schemas/generation.py`):
`max_tokens: int` in `[1, 4096]`, `temperature ≥ 0`, `top_p ∈ [0, 1]`,
`top_k: int ≥ 0`, `repeat_penalty ≥ 0`, `stop: list of strings`,
`seed: int ≥ 0`, `min_p ≥ 0`, `tfs_z ≥ 0`, `typical_p ≥ 0`; a key the
schema does not declare is ignored by the model and hence never invalid. -/
def validGenField : String → PyVal → Bool
  | "max_tokens", .num q => q.den == 1 && decide (1 ≤ q) && decide (q ≤ 4096)
  | "max_tokens", _ => false
  | "temperature", .num q => decide (0 ≤ q)
  | "temperature", _ => false
  | "top_p", .num q => decide (0 ≤ q) && decide (q ≤ 1)
  | "top_p", _ => false
  | "top_k", .num q => q.den == 1 && decide (0 ≤ q)
  | "top_k", _ => false
  | "repeat_penalty", .num q => decide (0 ≤ q)
  | "repeat_penalty", _ => false
  | "stop", .strList _ => true
  | "stop", _ => false
  | "seed", .num q => q.den == 1 && decide (0 ≤ q)
  | "seed", _ => false
  | "min_p", .num q => decide (0 ≤ q)
  | "min_p", _ => false
  | "tfs_z", .num q => decide (0 ≤ q)
  | "tfs_z", _ => false
  | "typical_p", .num q => decide (0 ≤ q)
  | "typical_p", _ => false
  | _, _ => true

/-- Whether a key is one of the declared `GenerationRequest` fields other
than `prompt` (only declared fields survive into the dumped parameter bag). -/
def knownGenField (k : String) : Bool :=
  k == "max_tokens" || k == "temperature" || k == "top_p" || k == "top_k" ||
  k == "repeat_penalty" || k == "stop" || k == "seed" || k == "min_p" ||
  k == "tfs_z" || k == "typical_p"

/-- The dict comprehension in `_build_generation_request`:
`{k: v for k, v in overrides.items() if v is not None and k != "prompt"}`. -/
def sanitizeGenOverrides (overrides : Overrides) : Overrides :=
  overrides.filter fun kv => kv.2 ≠ none && kv.1 ≠ "prompt"

/-- Whether `GenerationRequest(prompt=prompt, **sanitized)` validates. -/
def validGenOverrides (overrides : Overrides) : Bool :=
  (sanitizeGenOverrides overrides).all fun kv =>
    match kv.2 with
    | some v => validGenField kv.1 v
    | none => true

/-- The merged parameter bag `generation_request.model_dump(exclude_unset=True)`
minus its `prompt` entry: the declared fields that were explicitly set. -/
def genParams (overrides : Overrides) : List (String × PyVal) :=
  (sanitizeGenOverrides overrides).filterMap fun kv =>
    match kv.2 with
    | some v => if knownGenField kv.1 then some (kv.1, v) else none
    | none => none

/-- The validated generation request: the pipeline-built prompt plus the
explicitly-set declared fields. -/
structure GenRequest where
  prompt : String
  params : List (String × PyVal)
deriving DecidableEq

/-- `_build_generation_request`: sanitize, then validate against the
`GenerationRequest` schema; an invalid bag raises
`ValueError("Invalid generation overrides supplied")`, modelled as `.error`. -/
def build_generation_request (prompt : String) (overrides : Overrides) :
    Except Unit GenRequest :=
  if validGenOverrides overrides then
    .ok { prompt := prompt, params := genParams overrides }
  else .error ()

/-- Python `str.strip()` with no argument: remove leading and trailing
whitespace. -/
def pyStrip (s : String) : String :=
  ⟨((s.data.dropWhile Char.isWhitespace).reverse.dropWhile
      Char.isWhitespace).reverse⟩

/-- `_build_prompt`: strip the transcript, fall back to the literal
placeholder when it strips to empty (`strip() or "(no transcript available)"`),
and prepend stripped instructions when they are truthy (non-`None`,
non-empty). -/
def build_prompt (transcription_text : String) (instructions : Option String) :
    String :=
  let user_text :=
    if pyStrip transcription_text = "" then "(no transcript available)"
    else pyStrip transcription_text
  match instructions with
  | some ins =>
      if ins = "" then "User: " ++ user_text ++ "\nAssistant:"
      else pyStrip ins ++ "\n\nUser: " ++ user_text ++ "\nAssistant:"
  | none => "User: " ++ user_text ++ "\nAssistant:"

/-- `_prepare_synthesis_kwargs`: keep an override iff its key is neither
`text` nor `stream` and its value is not `None`. -/
def prepare_synthesis_kwargs (overrides : Overrides) : Overrides :=
  overrides.filter fun kv => kv.1 ≠ "text" && kv.1 ≠ "stream" && kv.2 ≠ none

/-- A materialized synthesis payload (`OpenAudioSynthesisResult`), byte
strings modelled as lists of naturals. -/
structure SynthResultModel where
  audio : List Nat
  response_format : String
  sample_rate : Int
deriving DecidableEq

/-- A streaming synthesis handle (`OpenAudioSynthesisStream`): the chunk
sequence its iterator factory will produce. -/
structure StreamModel where
  chunks : List (List Nat)
deriving DecidableEq

/-- The per-invocation outcome of each collaborator backend: `transcribe`
either yields a transcript text or raises; the generation call either
yields a reply text or raises; synthesis (blocking or streaming) either
yields its payload/handle or raises.  Each backend is called at most once
per `run_dialogue` invocation, so one `Except` per backend is fully
general. -/
structure BackendSpec where
  transcribeOutcome : Except Unit String
  generateOutcome : Except Unit String
  synthesizeOutcome : Except Unit SynthResultModel
  streamOutcome : Except Unit StreamModel

/-- The error kinds `run_dialogue` can surface. -/
inductive DialogueError where
  | transcriptionFailed
  | validation
  | generationFailed
  | synthesisFailed
deriving DecidableEq

/-- The value `run_dialogue` returns: either a `DialogueResult` or a
`DialogueStreamResult`. -/
inductive DialogueOutcome where
  | materialized (transcript reply : String) (synthesis : SynthResultModel)
  | streamed (transcript reply : String) (stream : StreamModel)
deriving DecidableEq

/-- Everything observable about one `run_dialogue` invocation: its
result-or-error, the calls made to each backend (with the arguments that
matter to the claims), and the metric events it recorded. -/
structure RunOutcome where
  result : Except DialogueError DialogueOutcome
  transcribeCalls : Nat
  genCalls : List GenRequest
  synthCalls : List Overrides
  llmEvents : List Bool
  pipelineEvents : List Bool

/-- Boolean success of an `Except`. -/
def exceptOk {ε α : Type} (e : Except ε α) : Bool :=
  match e with
  | .ok _ => true
  | .error _ => false

/-- `ConversationService.run_dialogue`: transcribe, build the prompt,
merge-and-validate the generation overrides, call the generation backend
off-thread (recording `llm_generation` with its own success flag), prepare
the synthesis kwargs, then either obtain a streaming handle or a
materialized payload; the whole pipeline is recorded once under
`speech_dialogue`, success only after the terminal result was
constructed. -/
def run_dialogue (be : BackendSpec) (instructions : Option String)
    (generation_overrides synthesis_overrides : Overrides)
    (stream_audio : Bool) : RunOutcome :=
  match be.transcribeOutcome with
  | .error _ =>
      { result := .error .transcriptionFailed
        transcribeCalls := 1, genCalls := [], synthCalls := []
        llmEvents := [], pipelineEvents := [false] }
  | .ok transcript =>
      let prompt := build_prompt transcript instructions
      match build_generation_request prompt generation_overrides with
      | .error _ =>
          { result := .error .validation
            transcribeCalls := 1, genCalls := [], synthCalls := []
            llmEvents := [], pipelineEvents := [false] }
      | .ok request =>
          match be.generateOutcome with
          | .error _ =>
              { result := .error .generationFailed
                transcribeCalls := 1, genCalls := [request], synthCalls := []
                llmEvents := [false], pipelineEvents := [false] }
          | .ok reply =>
              let kwargs := prepare_synthesis_kwargs synthesis_overrides
              if stream_audio then
                match be.streamOutcome with
                | .error _ =>
                    { result := .error .synthesisFailed
                      transcribeCalls := 1, genCalls := [request]
                      synthCalls := [kwargs]
                      llmEvents := [true], pipelineEvents := [false] }
                | .ok handle =>
                    { result := .ok (.streamed transcript reply handle)
                      transcribeCalls := 1, genCalls := [request]
                      synthCalls := [kwargs]
                      llmEvents := [true], pipelineEvents := [true] }
              else
                match be.synthesizeOutcome with
                | .error _ =>
                    { result := .error .synthesisFailed
                      transcribeCalls := 1, genCalls := [request]
                      synthCalls := [kwargs]
                      llmEvents := [true], pipelineEvents := [false] }
                | .ok payload =>
                    { result := .ok (.materialized transcript reply payload)
                      transcribeCalls := 1, genCalls := [request]
                      synthCalls := [kwargs]
                      llmEvents := [true], pipelineEvents := [true] }

/-- The hypothesis of the prompt-injection claim, written from its words:
two override bags differ only in the value of a `prompt` entry and/or in
entries whose value is null when they agree on every entry that is neither
`prompt`-keyed nor null-valued. -/
def differsOnlyInPromptOrNull (o₁ o₂ : Overrides) : Prop :=
  o₁.filter (fun kv => decide (kv.1 ≠ "prompt") && decide (kv.2 ≠ none)) =
  o₂.filter (fun kv => decide (kv.1 ≠ "prompt") && decide (kv.2 ≠ none))

end Conversation

namespace OpenAudio

/-- A byte chunk. -/
abbrev Chunk : Type := List Nat

/-- The chunks the async generator built inside `synthesize_stream` yields
for one backend response: each chunk of the response body in order, empty
chunks skipped (`if chunk: yield chunk`). -/
def streamChunks (response : List Chunk) : List Chunk :=
  response.filter fun c => !c.isEmpty

/-- The state of one async-generator object produced by the stream's
`iterator_factory`: the chunks it has not yet yielded.  A Python async
generator, once exhausted, stays exhausted. -/
structure SynthGen where
  pending : List Chunk
deriving DecidableEq

/-- Calling `iterator_factory()` once: a fresh generator over the filtered
response chunks. -/
def mkIterator (response : List Chunk) : SynthGen :=
  { pending := streamChunks response }

/-- One `__anext__` step: yield the next pending chunk, or signal
exhaustion (`StopAsyncIteration`) and stay exhausted. -/
def SynthGen.next (g : SynthGen) : Option Chunk × SynthGen :=
  match g.pending with
  | [] => (none, { pending := [] })
  | c :: rest => (some c, { pending := rest })

/-- Consuming the generator to exhaustion (one full `async for` pass):
the chunks delivered on this pass, and the generator's state afterwards. -/
def drain (g : SynthGen) : List Chunk × SynthGen :=
  match g with
  | { pending := [] } => ([], { pending := [] })
  | { pending := c :: rest } =>
      let r := drain { pending := rest }
      (c :: r.1, r.2)

end OpenAudio

namespace OpenAudio

/-- A full pass over a generator delivers exactly its pending chunks and
leaves it exhausted. -/
theorem drain_eq (l : List Chunk) :
    drain { pending := l } = (l, { pending := [] }) := by
  induction l with
  | nil => simp [drain]
  | cons c rest ih => simp [drain, ih]

end OpenAudio

/-- C9: the audio-chunk sequence of a streaming dialogue result is
single-pass: a first full pass over the generator built by
`synthesize_stream`'s iterator yields exactly the (non-empty) response
chunks, and a second pass over the same generator yields no chunks. -/
theorem C9_stream_single_pass (response : List OpenAudio.Chunk) :
    (OpenAudio.drain (OpenAudio.mkIterator response)).1 =
      OpenAudio.streamChunks response ∧
    (OpenAudio.drain ((OpenAudio.drain (OpenAudio.mkIterator response)).2)).1
      = [] := by
  constructor
  · rw [OpenAudio.mkIterator, OpenAudio.drain_eq]
  · rw [OpenAudio.mkIterator, OpenAudio.drain_eq]
    simp [OpenAudio.drain_eq]

/-- C5: prompt construction is a pure function of transcript and
instructions: with (non-empty) instructions the prompt is
`<trimmed-instructions>\n\nUser: <user>\nAssistant:`, without instructions
it is `User: <user>\nAssistant:`, where `<user>` is the trimmed transcript
or the literal placeholder exactly when the transcript trims to empty; the
embedded user turn is never the empty string. -/
theorem C5_prompt_construction (text ins : String) (hins : ins ≠ "") :
    (Conversation.build_prompt text (some ins) =
      Conversation.pyStrip ins ++ "\n\nUser: " ++
        (if Conversation.pyStrip text = "" then "(no transcript available)"
         else Conversation.pyStrip text) ++ "\nAssistant:") ∧
    (Conversation.build_prompt text none =
      "User: " ++
        (if Conversation.pyStrip text = "" then "(no transcript available)"
         else Conversation.pyStrip text) ++ "\nAssistant:") ∧
    (if Conversation.pyStrip text = "" then "(no transcript available)"
     else Conversation.pyStrip text) ≠ ""
    := by
  refine ⟨?_, ?_, ?_⟩
  · simp [Conversation.build_prompt, hins]
  · simp [Conversation.build_prompt]
  · split
    · decide
    · assumption

/-- Closed witness for C5 at a concrete transcript and instruction pair. -/
theorem C5_prompt_construction_witness :
    ("sys" : String) ≠ "" ∧
      Conversation.build_prompt "  " (some "sys") =
        "sys" ++ "\n\nUser: " ++ "(no transcript available)" ++ "\nAssistant:"
    := by
  refine ⟨by decide, ?_⟩
  have h := (C5_prompt_construction "  " "sys" (by decide)).1
  rw [h]
  decide

/-- C6: the kwargs handed to the synthesis adapter are the caller's
synthesis override bag with the reserved keys `text` and `stream` and all
null-valued entries removed; every other non-null entry passes through
unchanged (and in order), and every synthesis call made by `run_dialogue`
receives exactly that filtered bag. -/
theorem C6_synthesis_override_filtering (overrides : Conversation.Overrides) :
    (∀ kv ∈ Conversation.prepare_synthesis_kwargs overrides,
        kv.1 ≠ "text" ∧ kv.1 ≠ "stream" ∧ kv.2 ≠ none) ∧
    (∀ kv ∈ overrides, kv.1 ≠ "text" → kv.1 ≠ "stream" → kv.2 ≠ none →
        kv ∈ Conversation.prepare_synthesis_kwargs overrides) ∧
    (Conversation.prepare_synthesis_kwargs overrides).Sublist overrides ∧
    (∀ be ins go stream,
      ∀ kwargs ∈ (Conversation.run_dialogue be ins go overrides stream).synthCalls,
        kwargs = Conversation.prepare_synthesis_kwargs overrides) := by
  refine ⟨?_, ?_, List.filter_sublist _, ?_⟩
  · intro kv hkv
    rw [Conversation.prepare_synthesis_kwargs, List.mem_filter] at hkv
    simpa [and_assoc] using hkv.2
  · intro kv hkv h1 h2 h3
    rw [Conversation.prepare_synthesis_kwargs, List.mem_filter]
    exact ⟨hkv, by simp [h1, h2, h3]⟩
  · intro be ins go stream kwargs hk
    obtain ⟨t, g, s, st⟩ := be
    by_cases hv : Conversation.validGenOverrides go
    all_goals cases t <;> cases g <;> cases s <;> cases st <;> cases stream <;>
      simp [Conversation.run_dialogue, Conversation.build_generation_request,
        hv] at hk <;> simp [hk]

/-- Closed witness for C6 at a concrete override bag. -/
theorem C6_synthesis_override_filtering_witness :
    (("normalize", some (Conversation.PyVal.num 1)) :
        String × Option Conversation.PyVal) ∈
      Conversation.prepare_synthesis_kwargs
        [("text", some (.str "x")), ("stream", some (.num 1)),
         ("normalize", some (.num 1)), ("speed", none)] :=
  (C6_synthesis_override_filtering _).2.1 _ (by decide) (by decide) (by decide)
    (by decide)

/-- C4: every `run_dialogue` invocation records exactly one
`speech_dialogue` observation, whose success flag is true iff the terminal
result was constructed and returned and false iff the invocation raises;
every generation backend call that is started is recorded exactly once
under `llm_generation` with its own success flag; and in streaming mode the
pipeline flag does not depend on the chunk contents of the obtained
handle. -/
theorem C4_metrics_bracketing (be : Conversation.BackendSpec)
    (ins : Option String) (go so : Conversation.Overrides) (stream : Bool) :
    (Conversation.run_dialogue be ins go so stream).pipelineEvents =
      [Conversation.exceptOk (Conversation.run_dialogue be ins go so stream).result] ∧
    (Conversation.run_dialogue be ins go so stream).llmEvents =
      (Conversation.run_dialogue be ins go so stream).genCalls.map
        (fun _ => Conversation.exceptOk be.generateOutcome) ∧
    (∀ s₁ s₂ : Conversation.StreamModel,
      (Conversation.run_dialogue { be with streamOutcome := .ok s₁ }
          ins go so true).pipelineEvents =
      (Conversation.run_dialogue { be with streamOutcome := .ok s₂ }
          ins go so true).pipelineEvents) := by
  obtain ⟨t, g, s, st⟩ := be
  by_cases hv : Conversation.validGenOverrides go
  all_goals
    refine ⟨?_, ?_, ?_⟩ <;>
      [skip; skip; intro s₁ s₂] <;>
      cases t <;> cases g <;> cases s <;> cases st <;> cases stream <;>
      simp [Conversation.run_dialogue, Conversation.build_generation_request,
        Conversation.exceptOk, hv]

/-- C2 counterexample: with a transcription backend that succeeds and an
override bag carrying a non-numeric `max_tokens`, `run_dialogue` does fail
with the validation error, but the transcription backend has been invoked
once, not zero times as the claim requires. -/
theorem C2_counterexample :
    (Conversation.run_dialogue
        ⟨.ok "hello", .ok "reply", .ok ⟨[0], "wav", 16000⟩, .ok ⟨[[0]]⟩⟩
        none [("max_tokens", some (.str "invalid"))] [] false).result =
      .error .validation ∧
    (Conversation.run_dialogue
        ⟨.ok "hello", .ok "reply", .ok ⟨[0], "wav", 16000⟩, .ok ⟨[[0]]⟩⟩
        none [("max_tokens", some (.str "invalid"))] [] false).transcribeCalls
      = 1 := by
  constructor <;> rfl

/-- C2 (amended): an invalid generation-override bag makes `run_dialogue`
fail with the local validation error (distinct from every
backend-unavailable error) before the generation or synthesis backend is
called — both are invoked zero times and no `llm_generation` observation is
recorded — while the transcription backend, which runs first in the
pipeline, has already been invoked exactly once. -/
theorem C2_validation_before_generation (be : Conversation.BackendSpec)
    (ins : Option String) (go so : Conversation.Overrides) (stream : Bool)
    (htr : Conversation.exceptOk be.transcribeOutcome = true)
    (hbad : Conversation.validGenOverrides go = false) :
    (Conversation.run_dialogue be ins go so stream).result =
      .error .validation ∧
    (Conversation.run_dialogue be ins go so stream).genCalls = [] ∧
    (Conversation.run_dialogue be ins go so stream).synthCalls = [] ∧
    (Conversation.run_dialogue be ins go so stream).llmEvents = [] ∧
    (Conversation.run_dialogue be ins go so stream).transcribeCalls = 1 := by
  obtain ⟨t, g, s, st⟩ := be
  cases t with
  | error e => simp [Conversation.exceptOk] at htr
  | ok transcript =>
      refine ⟨?_, ?_, ?_, ?_, ?_⟩ <;>
        simp [Conversation.run_dialogue, Conversation.build_generation_request,
          hbad]

/-- Closed witness for the amended C2 at a concrete invocation. -/
theorem C2_validation_before_generation_witness :
    Conversation.exceptOk
        (Conversation.BackendSpec.transcribeOutcome
          ⟨.ok "hello", .ok "reply", .ok ⟨[0], "wav", 16000⟩, .ok ⟨[[0]]⟩⟩)
      = true ∧
    Conversation.validGenOverrides [("max_tokens", some (.str "invalid"))]
      = false ∧
    (Conversation.run_dialogue
        ⟨.ok "hello", .ok "reply", .ok ⟨[0], "wav", 16000⟩, .ok ⟨[[0]]⟩⟩
        none [("max_tokens", some (.str "invalid"))] [] false).genCalls = [] :=
  ⟨rfl, rfl,
    (C2_validation_before_generation
      ⟨.ok "hello", .ok "reply", .ok ⟨[0], "wav", 16000⟩, .ok ⟨[[0]]⟩⟩
      none [("max_tokens", some (.str "invalid"))] [] false rfl rfl).2.1⟩

namespace Conversation

/-- Sanitization only reads the entries that are neither `prompt`-keyed nor
null-valued, so bags related by `differsOnlyInPromptOrNull` sanitize
identically. -/
theorem sanitize_eq_of_differs {o₁ o₂ : Overrides}
    (h : differsOnlyInPromptOrNull o₁ o₂) :
    sanitizeGenOverrides o₁ = sanitizeGenOverrides o₂ := by
  have swap : ∀ o : Overrides,
      sanitizeGenOverrides o =
        o.filter (fun kv => decide (kv.1 ≠ "prompt") && decide (kv.2 ≠ none)) := by
    intro o
    rw [sanitizeGenOverrides]
    exact List.filter_congr fun kv _ => by
      by_cases h1 : kv.1 = "prompt" <;> by_cases h2 : kv.2 = none <;>
        simp [h1, h2]
  rw [swap, swap]
  exact h

/-- The validated request agrees on bags that sanitize identically. -/
theorem build_generation_request_eq_of_differs (prompt : String)
    {o₁ o₂ : Overrides} (h : differsOnlyInPromptOrNull o₁ o₂) :
    build_generation_request prompt o₁ = build_generation_request prompt o₂ := by
  have hs := sanitize_eq_of_differs h
  rw [build_generation_request, build_generation_request,
    validGenOverrides, validGenOverrides, genParams, genParams, hs]

end Conversation

/-- C10: the caller cannot influence the generation prompt through the
override bag: two `run_dialogue` invocations whose generation-override bags
differ only in a `prompt` entry and/or in null-valued entries pass the very
same merged parameter bag to the generation backend, and the prompt field
of every bag passed to that backend is the pipeline-built prompt. -/
theorem C10_prompt_not_caller_controlled (be : Conversation.BackendSpec)
    (ins : Option String) (so : Conversation.Overrides) (stream : Bool)
    (o₁ o₂ : Conversation.Overrides)
    (h : Conversation.differsOnlyInPromptOrNull o₁ o₂) :
    (Conversation.run_dialogue be ins o₁ so stream).genCalls =
      (Conversation.run_dialogue be ins o₂ so stream).genCalls ∧
    (∀ req ∈ (Conversation.run_dialogue be ins o₁ so stream).genCalls,
      ∃ t, be.transcribeOutcome = .ok t ∧
        req.prompt = Conversation.build_prompt t ins) := by
  have hs := Conversation.sanitize_eq_of_differs h
  have hvv : Conversation.validGenOverrides o₁ =
      Conversation.validGenOverrides o₂ := by
    rw [Conversation.validGenOverrides, Conversation.validGenOverrides, hs]
  have hgp : Conversation.genParams o₁ = Conversation.genParams o₂ := by
    rw [Conversation.genParams, Conversation.genParams, hs]
  obtain ⟨t, g, s, st⟩ := be
  by_cases hv : Conversation.validGenOverrides o₁
  all_goals
    have hv2 : Conversation.validGenOverrides o₂ =
        Conversation.validGenOverrides o₁ := hvv.symm
    constructor
  · cases t <;> cases g <;> cases s <;> cases st <;> cases stream <;>
      simp [Conversation.run_dialogue, Conversation.build_generation_request,
        hv, hv2, hgp]
  · intro req hreq
    cases t with
    | error e => simp [Conversation.run_dialogue] at hreq
    | ok transcript =>
        refine ⟨transcript, rfl, ?_⟩
        cases g <;> cases s <;> cases st <;> cases stream <;>
          simp [Conversation.run_dialogue,
            Conversation.build_generation_request, hv] at hreq <;>
          simp [hreq]
  · cases t <;> cases g <;> cases s <;> cases st <;> cases stream <;>
      simp [Conversation.run_dialogue, Conversation.build_generation_request,
        hv, hv2, hgp]
  · intro req hreq
    cases t with
    | error e => simp [Conversation.run_dialogue] at hreq
    | ok transcript =>
        cases g <;> cases s <;> cases st <;> cases stream <;>
          simp [Conversation.run_dialogue,
            Conversation.build_generation_request, hv] at hreq

/-- Closed witness for C10 at two concrete bags differing in a `prompt`
entry and a null entry. -/
theorem C10_prompt_not_caller_controlled_witness :
    Conversation.differsOnlyInPromptOrNull
      [("prompt", some (.str "evil")), ("temperature", some (.num 1))]
      [("temperature", some (.num 1)), ("seed", none)] ∧
    (Conversation.run_dialogue
        ⟨.ok "hi", .ok "r", .ok ⟨[0], "wav", 16000⟩, .ok ⟨[[0]]⟩⟩ none
        [("prompt", some (.str "evil")), ("temperature", some (.num 1))]
        [] false).genCalls =
      (Conversation.run_dialogue
        ⟨.ok "hi", .ok "r", .ok ⟨[0], "wav", 16000⟩, .ok ⟨[[0]]⟩⟩ none
        [("temperature", some (.num 1)), ("seed", none)] [] false).genCalls :=
  ⟨by unfold Conversation.differsOnlyInPromptOrNull; decide,
    (C10_prompt_not_caller_controlled
      ⟨.ok "hi", .ok "r", .ok ⟨[0], "wav", 16000⟩, .ok ⟨[[0]]⟩⟩ none [] false
      [("prompt", some (.str "evil")), ("temperature", some (.num 1))]
      [("temperature", some (.num 1)), ("seed", none)]
      (by unfold Conversation.differsOnlyInPromptOrNull; decide)).1⟩

namespace RateLimiter

/-- The bucket stored back by an `acquire` call always carries the current
clock reading as its refill timestamp. -/
theorem postBucket_last_refill (cfg : Config) (now : ℚ) (ob : Option Bucket) :
    (postBucket cfg now ob).last_refill = now := by
  unfold postBucket
  split <;> cases ob <;> rfl

/-- An enabled `acquire` with positive capacity runs the full locked
section: refill-or-create, admission test, store, sweep. -/
theorem acquire_eq_of_enabled (cfg : Config) (m : Buckets)
    (identifier scope : String) (now : ℚ)
    (h1 : cfg.enabled = true) (h2 : 0 < cfg.capacity) :
    acquire cfg m identifier scope now =
      { allowed := admitted cfg now (m (bucket_key scope identifier))
        retryAfter :=
          if admitted cfg now (m (bucket_key scope identifier)) then 0
          else if 0 < cfg.refillRate then
            max 0 ((1 - (postBucket cfg now
              (m (bucket_key scope identifier))).tokens) / cfg.refillRate)
          else 0
        state := cleanup_locked cfg now
          (fun k => if k = bucket_key scope identifier then
              some (postBucket cfg now (m (bucket_key scope identifier)))
            else m k) } := by
  have hcond : ¬(cfg.enabled = false ∨ cfg.capacity ≤ 0) := by
    rintro (hf | hle)
    · rw [h1] at hf; exact Bool.noConfusion hf
    · exact absurd hle (not_le.mpr h2)
  rw [acquire, if_neg hcond]

end RateLimiter

/-- C7: an `acquire(identifier, scope)` call mutates at most the bucket
keyed `scope:identifier`: every other key either keeps exactly its previous
entry or is removed because its TTL had expired; and the `api_key` and `ip`
scopes never share a bucket key for the same identifier text. -/
theorem C7_scope_isolation (cfg : RateLimiter.Config) (m : RateLimiter.Buckets)
    (identifier scope : String) (now : ℚ) :
    (∀ k, k ≠ RateLimiter.bucket_key scope identifier →
      ((RateLimiter.acquire cfg m identifier scope now).state k = m k ∨
       ((RateLimiter.acquire cfg m identifier scope now).state k = none ∧
        ∃ b, m k = some b ∧ cfg.bucketTTL < now - b.last_refill))) ∧
    (∀ ident : String,
      RateLimiter.bucket_key "api_key" ident ≠ RateLimiter.bucket_key "ip" ident)
    := by
  constructor
  · intro k hk
    by_cases hd : cfg.enabled = false ∨ cfg.capacity ≤ 0
    · left; rw [RateLimiter.acquire, if_pos hd]
    · push_neg at hd
      have h1 : cfg.enabled = true := by
        have := hd.1; revert this; cases cfg.enabled <;> simp
      rw [RateLimiter.acquire_eq_of_enabled cfg m identifier scope now h1 hd.2]
      dsimp only
      rw [RateLimiter.cleanup_locked]
      by_cases httl : cfg.bucketTTL ≤ 0
      · rw [if_pos httl]; left; simp [hk]
      · rw [if_neg httl]
        cases hmk : m k with
        | none => left; simp [hk, hmk]
        | some b =>
            by_cases hexp : cfg.bucketTTL < now - b.last_refill
            · right
              refine ⟨?_, b, rfl, hexp⟩
              simp [hk, hmk, hexp]
            · left; simp [hk, hmk, hexp]
  · intro ident h
    have hlen := congrArg String.length h
    rw [RateLimiter.bucket_key, RateLimiter.bucket_key] at hlen
    simp only [String.length_append] at hlen
    have h1 : ("api_key" : String).length = 7 := rfl
    have h2 : (":" : String).length = 1 := rfl
    have h3 : ("ip" : String).length = 2 := rfl
    omega

/-- Closed witness for C7: the two scope keys differ for `k1`, and an
acquire under scope `ip` leaves the (absent) `api_key` bucket exactly as it
was. -/
theorem C7_scope_isolation_witness :
    RateLimiter.bucket_key "api_key" "k1" ≠ RateLimiter.bucket_key "ip" "k1" ∧
    ((RateLimiter.acquire ⟨true, 2, 1, 10⟩ RateLimiter.emptyBuckets "k1" "ip"
        0).state (RateLimiter.bucket_key "api_key" "k1") =
      RateLimiter.emptyBuckets (RateLimiter.bucket_key "api_key" "k1") ∨
     ((RateLimiter.acquire ⟨true, 2, 1, 10⟩ RateLimiter.emptyBuckets "k1" "ip"
        0).state (RateLimiter.bucket_key "api_key" "k1") = none ∧
      ∃ b, RateLimiter.emptyBuckets (RateLimiter.bucket_key "api_key" "k1") =
          some b ∧
        (⟨true, 2, 1, 10⟩ : RateLimiter.Config).bucketTTL <
          0 - b.last_refill)) :=
  ⟨(C7_scope_isolation ⟨true, 2, 1, 10⟩ RateLimiter.emptyBuckets "k1" "ip"
      0).2 "k1",
   (C7_scope_isolation ⟨true, 2, 1, 10⟩ RateLimiter.emptyBuckets "k1" "ip"
      0).1 (RateLimiter.bucket_key "api_key" "k1") (by decide)⟩

/-- C8: after an enabled `acquire` call on a limiter built with a positive
window, no bucket whose `last_refill` is more than `window * 5` old remains
in the map, and the bucket touched by that very call is still present with
`last_refill = now` — it is never removed by its own sweep. -/
theorem C8_bucket_eviction (requests burst window : ℚ) (hw : 0 < window)
    (m : RateLimiter.Buckets) (identifier scope : String) (now : ℚ) :
    (∀ k b,
      (RateLimiter.acquire (RateLimiter.mkRateLimiter true requests burst window)
          m identifier scope now).state k = some b →
        now - b.last_refill ≤ window * 5) ∧
    ((RateLimiter.acquire (RateLimiter.mkRateLimiter true requests burst window)
          m identifier scope now).state
          (RateLimiter.bucket_key scope identifier) =
        some (RateLimiter.postBucket
          (RateLimiter.mkRateLimiter true requests burst window) now
          (m (RateLimiter.bucket_key scope identifier))) ∧
      (RateLimiter.postBucket
          (RateLimiter.mkRateLimiter true requests burst window) now
          (m (RateLimiter.bucket_key scope identifier))).last_refill = now)
    := by
  set cfg := RateLimiter.mkRateLimiter true requests burst window with hcfg
  have h1 : cfg.enabled = true := rfl
  have h2 : 0 < cfg.capacity := lt_of_lt_of_le one_pos (le_max_left _ _)
  have httl : cfg.bucketTTL = window * 5 := rfl
  have httlpos : 0 < cfg.bucketTTL := by rw [httl]; positivity
  rw [RateLimiter.acquire_eq_of_enabled cfg m identifier scope now h1 h2]
  dsimp only
  rw [RateLimiter.cleanup_locked, if_neg (not_le.mpr httlpos)]
  constructor
  · intro k b hkb
    rcases hsc : (if k = RateLimiter.bucket_key scope identifier then
        some (RateLimiter.postBucket cfg now
          (m (RateLimiter.bucket_key scope identifier)))
      else m k) with _ | b'
    · rw [hsc] at hkb; exact absurd hkb (by simp)
    · rw [hsc] at hkb
      by_cases hexp : cfg.bucketTTL < now - b'.last_refill
      · simp [hexp] at hkb
      · simp [hexp] at hkb
        rw [← httl, ← hkb]
        exact le_of_not_lt hexp
  · refine ⟨?_, ?_⟩
    · rw [if_pos rfl]
      simp [RateLimiter.postBucket_last_refill, sub_self,
        show ¬cfg.bucketTTL < 0 from not_lt.mpr httlpos.le]
    · exact RateLimiter.postBucket_last_refill cfg now _

/-- Closed witness for C8: a concrete acquire on a one-request limiter
keeps its own bucket with refill timestamp `now`. -/
theorem C8_bucket_eviction_witness :
    (0 : ℚ) < 60 ∧
    (RateLimiter.acquire (RateLimiter.mkRateLimiter true 1 1 60)
        RateLimiter.emptyBuckets "c" "ip" 0).state
        (RateLimiter.bucket_key "ip" "c") =
      some (RateLimiter.postBucket (RateLimiter.mkRateLimiter true 1 1 60) 0
        (RateLimiter.emptyBuckets (RateLimiter.bucket_key "ip" "c"))) ∧
    (RateLimiter.postBucket (RateLimiter.mkRateLimiter true 1 1 60) 0
        (RateLimiter.emptyBuckets (RateLimiter.bucket_key "ip" "c"))).last_refill
      = 0 :=
  ⟨by norm_num,
    (C8_bucket_eviction 1 1 60 (by norm_num) RateLimiter.emptyBuckets "c" "ip"
      0).2.1,
    (C8_bucket_eviction 1 1 60 (by norm_num) RateLimiter.emptyBuckets "c" "ip"
      0).2.2⟩

namespace RateLimiter

/-- Any bucket present after an `acquire` call is either the bucket that
call stored for its own key or a bucket the previous map already held. -/
theorem acquire_state_mem (cfg : Config) (m : Buckets)
    (identifier scope : String) (now : ℚ) (k : String) (b : Bucket)
    (hkb : (acquire cfg m identifier scope now).state k = some b) :
    b = postBucket cfg now (m (bucket_key scope identifier)) ∨ m k = some b
    := by
  by_cases hd : cfg.enabled = false ∨ cfg.capacity ≤ 0
  · right; rwa [acquire, if_pos hd] at hkb
  · push_neg at hd
    have h1 : cfg.enabled = true := by
      have := hd.1; revert this; cases cfg.enabled <;> simp
    rw [acquire_eq_of_enabled cfg m identifier scope now h1 hd.2] at hkb
    dsimp only at hkb
    rw [cleanup_locked] at hkb
    by_cases httl : cfg.bucketTTL ≤ 0
    · rw [if_pos httl] at hkb
      by_cases hkey : k = bucket_key scope identifier
      · left; simp [hkey] at hkb; exact hkb.symm
      · right; simpa [hkey] using hkb
    · rw [if_neg httl] at hkb
      by_cases hkey : k = bucket_key scope identifier
      · left
        by_cases hexp : cfg.bucketTTL <
            now - (postBucket cfg now (m (bucket_key scope identifier))).last_refill
        · simp [hkey, hexp] at hkb
        · simp [hkey, hexp] at hkb; exact hkb.symm
      · right
        rcases h2 : m k with _ | b'
        · simp [hkey, h2] at hkb
        · by_cases hexp : cfg.bucketTTL < now - b'.last_refill
          · simp [hkey, h2, hexp] at hkb
          · simp [hkey, h2, hexp] at hkb; rw [hkb]

/-- The stored bucket's token count stays inside `[0, capacity]` whenever
the looked-up bucket's count was non-negative. -/
theorem postBucket_bounds (cfg : Config) (now : ℚ) (ob : Option Bucket)
    (hcap : 0 < cfg.capacity) (hrate : 0 ≤ cfg.refillRate)
    (hob : ∀ b, ob = some b → 0 ≤ b.tokens) :
    0 ≤ (postBucket cfg now ob).tokens ∧
      (postBucket cfg now ob).tokens ≤ cfg.capacity := by
  have hrb : 0 ≤ (refillBucket cfg now ob).tokens ∧
      (refillBucket cfg now ob).tokens ≤ cfg.capacity := by
    cases ob with
    | none => exact ⟨hcap.le, le_refl _⟩
    | some b =>
        have hb := hob b rfl
        constructor
        · simp only [refillBucket]
          exact le_min hcap.le
            (add_nonneg hb (mul_nonneg (le_max_left _ _) hrate))
        · simp only [refillBucket]
          exact min_le_left _ _
  simp only [postBucket]
  by_cases ha : admitted cfg now ob
  · rw [if_pos ha]
    rw [admitted] at ha
    have h1 : (1 : ℚ) ≤ (refillBucket cfg now ob).tokens :=
      of_decide_eq_true ha
    constructor
    · simp only
      linarith
    · simp only
      linarith [hrb.2]
  · rw [if_neg ha]; exact hrb

end RateLimiter

/-- C3: for an existing bucket the refill step of an enabled `acquire` sets
the token count to `min capacity (tokens + elapsed * refillRate)` with
`elapsed` the time since the bucket's last refill, and stamps
`lastRefill = now`; and every bucket of every map reachable by `acquire`
calls keeps its token count inside `[0, capacity]`. -/
theorem C3_refill_and_bounds (cfg : RateLimiter.Config)
    (hcap : 0 < cfg.capacity) (hrate : 0 ≤ cfg.refillRate) :
    (∀ (b : RateLimiter.Bucket) (now : ℚ), b.last_refill ≤ now →
      RateLimiter.refillBucket cfg now (some b) =
        { tokens := min cfg.capacity
            (b.tokens + (now - b.last_refill) * cfg.refillRate)
          last_refill := now }) ∧
    (∀ m, RateLimiter.Reachable cfg m → ∀ k b, m k = some b →
      0 ≤ b.tokens ∧ b.tokens ≤ cfg.capacity) := by
  constructor
  · intro b now hb
    simp only [RateLimiter.refillBucket]
    rw [max_eq_right (sub_nonneg.mpr hb)]
  · intro m hm
    induction hm with
    | empty =>
        intro k b hkb
        exact absurd hkb (by simp [RateLimiter.emptyBuckets])
    | step m identifier scope now hrm ih =>
        intro k b hkb
        rcases RateLimiter.acquire_state_mem cfg m identifier scope now k b hkb
          with hpost | hold
        · rw [hpost]
          exact RateLimiter.postBucket_bounds cfg now _ hcap hrate
            (fun b' hb' => (ih _ b' hb').1)
        · exact ih k b hold

/-- Closed witness for C3: a concrete refill on a concrete reachable map. -/
theorem C3_refill_and_bounds_witness :
    (0 : ℚ) < 2 ∧ (0 : ℚ) ≤ 1 ∧
    RateLimiter.refillBucket ⟨true, 2, 1, 10⟩ 3 (some ⟨1, 1⟩) =
      { tokens := min (2 : ℚ) (1 + (3 - 1) * 1), last_refill := 3 } :=
  ⟨by norm_num, by norm_num,
    (C3_refill_and_bounds ⟨true, 2, 1, 10⟩ (by norm_num) (by norm_num)).1
      ⟨1, 1⟩ 3 (by norm_num)⟩

namespace RateLimiter

/-- An enabled `acquire` always stores the post-admission bucket under its
own key. -/
theorem acquire_state_self (cfg : Config) (m : Buckets)
    (identifier scope : String) (now : ℚ)
    (h1 : cfg.enabled = true) (hcap : 0 < cfg.capacity) :
    (acquire cfg m identifier scope now).state
        (bucket_key scope identifier) =
      some (postBucket cfg now (m (bucket_key scope identifier))) := by
  rw [acquire_eq_of_enabled cfg m identifier scope now h1 hcap]
  dsimp only
  rw [cleanup_locked]
  by_cases httl : cfg.bucketTTL ≤ 0
  · rw [if_pos httl]; simp
  · rw [if_neg httl]
    simp [postBucket_last_refill, sub_self, not_lt.mpr (not_le.mp httl).le]

/-- An enabled `acquire` admits exactly when the refilled bucket holds at
least one token. -/
theorem acquire_allowed_iff (cfg : Config) (m : Buckets)
    (identifier scope : String) (now : ℚ)
    (h1 : cfg.enabled = true) (hcap : 0 < cfg.capacity) :
    ((acquire cfg m identifier scope now).allowed = true ↔
      1 ≤ (refillBucket cfg now
        (m (bucket_key scope identifier))).tokens) := by
  rw [acquire_eq_of_enabled cfg m identifier scope now h1 hcap]
  dsimp only
  simp [admitted]

/-- The stored token count is the refilled count minus one exactly on
admission. -/
theorem postBucket_tokens (cfg : Config) (now : ℚ) (ob : Option Bucket) :
    (postBucket cfg now ob).tokens =
      (refillBucket cfg now ob).tokens -
        (if admitted cfg now ob then 1 else 0) := by
  simp only [postBucket]
  split <;> simp

/-- Refilling a bucket stamped at the current clock reading is the
identity on its (in-range) token count. -/
theorem refill_same_now (cfg : Config) (t now : ℚ) (ht : t ≤ cfg.capacity) :
    refillBucket cfg now (some ⟨t, now⟩) = ⟨t, now⟩ := by
  simp [refillBucket, sub_self, min_eq_right ht]

/-- Token count stored for the touched key after `n + 1` back-to-back
`acquire` calls at one clock reading, starting with no bucket for that key:
`capacity - min (n+1) ⌊capacity⌋`. -/
theorem acquireIter_same_now (cfg : Config) (identifier scope : String)
    (now : ℚ) (m : Buckets) (h1 : cfg.enabled = true)
    (hcap : 0 < cfg.capacity)
    (h0 : m (bucket_key scope identifier) = none) :
    ∀ n : ℕ,
      acquireIter cfg identifier scope now m (n + 1)
          (bucket_key scope identifier) =
        some ⟨cfg.capacity -
          ((min ((n : ℤ) + 1) ⌊cfg.capacity⌋ : ℤ) : ℚ), now⟩ := by
  have hF0 : (0 : ℤ) ≤ ⌊cfg.capacity⌋ := Int.floor_nonneg.mpr hcap.le
  have hFle : ((⌊cfg.capacity⌋ : ℤ) : ℚ) ≤ cfg.capacity := Int.floor_le _
  have hFlt : cfg.capacity < ⌊cfg.capacity⌋ + 1 := Int.lt_floor_add_one _
  intro n
  induction n with
  | zero =>
      show (acquire cfg m identifier scope now).state _ = _
      rw [acquire_state_self cfg m identifier scope now h1 hcap, h0]
      simp only [postBucket, admitted, refillBucket]
      by_cases hC : (1 : ℚ) ≤ cfg.capacity
      · have hF1 : (1 : ℤ) ≤ ⌊cfg.capacity⌋ := Int.le_floor.mpr (by
          exact_mod_cast hC)
        rw [if_pos (by simpa using hC)]
        have hmin : min (((0 : ℕ) : ℤ) + 1) ⌊cfg.capacity⌋ = 1 := by
          have h01 : (((0 : ℕ) : ℤ) + 1) = 1 := by norm_num
          rw [h01, min_eq_left hF1]
        rw [hmin]
        norm_num
      · have hF : ⌊cfg.capacity⌋ = 0 := by
          have : ¬(1 : ℤ) ≤ ⌊cfg.capacity⌋ := fun hge =>
            hC (by exact_mod_cast le_trans (by exact_mod_cast hge) hFle)
          omega
        rw [if_neg (by simpa using hC)]
        norm_num [hF]
  | succ n' ih =>
      show (acquire cfg (acquireIter cfg identifier scope now m (n' + 1))
          identifier scope now).state _ = _
      rw [acquire_state_self cfg _ identifier scope now h1 hcap, ih]
      have hmin0 : (0 : ℤ) ≤ min ((n' : ℤ) + 1) ⌊cfg.capacity⌋ :=
        le_min (by omega) hF0
      have ht : cfg.capacity -
          ((min ((n' : ℤ) + 1) ⌊cfg.capacity⌋ : ℤ) : ℚ) ≤ cfg.capacity := by
        have : (0 : ℚ) ≤ ((min ((n' : ℤ) + 1) ⌊cfg.capacity⌋ : ℤ) : ℚ) := by
          exact_mod_cast hmin0
        linarith
      simp only [postBucket, admitted, refill_same_now cfg _ now ht]
      by_cases hn : (n' : ℤ) + 1 < ⌊cfg.capacity⌋
      · have hminl : min ((n' : ℤ) + 1) ⌊cfg.capacity⌋ = (n' : ℤ) + 1 :=
          min_eq_left (by omega)
        have hminl2 : min ((n' : ℤ) + 1 + 1) ⌊cfg.capacity⌋ =
            (n' : ℤ) + 1 + 1 := min_eq_left (by omega)
        have hge : (1 : ℚ) ≤ cfg.capacity -
            ((min ((n' : ℤ) + 1) ⌊cfg.capacity⌋ : ℤ) : ℚ) := by
          rw [hminl]
          have : ((n' : ℤ) + 1 + 1 : ℚ) ≤ ((⌊cfg.capacity⌋ : ℤ) : ℚ) := by
            exact_mod_cast (by omega : (n' : ℤ) + 1 + 1 ≤ ⌊cfg.capacity⌋)
          push_cast at this ⊢
          linarith
        rw [if_pos (by simpa using hge)]
        congr 1
        rw [hminl]
        have : ((n' + 1 : ℕ) : ℤ) + 1 = (n' : ℤ) + 1 + 1 := by push_cast; ring
        rw [this, hminl2]
        push_cast
        ring_nf
      · have hminr : min ((n' : ℤ) + 1) ⌊cfg.capacity⌋ = ⌊cfg.capacity⌋ :=
          min_eq_right (by omega)
        have hlt : cfg.capacity -
            ((min ((n' : ℤ) + 1) ⌊cfg.capacity⌋ : ℤ) : ℚ) < 1 := by
          rw [hminr]
          linarith
        rw [if_neg (by simpa using not_le.mpr hlt)]
        congr 2
        have : ((n' + 1 : ℕ) : ℤ) + 1 = (n' : ℤ) + 1 + 1 := by push_cast; ring
        rw [this, hminr, min_eq_right (by omega)]

end RateLimiter

/-- C1: with the limiter enabled and no prior bucket for the key, a run of
back-to-back `acquire` calls at one clock reading admits call `n` exactly
when `n < ⌊capacity⌋` (so exactly `⌊capacity⌋` calls are admitted before
the first rejection); each call is admitted iff the bucket it sees holds at
least one token, an admitted call stores exactly one token less than it
saw, and a rejected call stores the token count unchanged. -/
theorem C1_token_bucket_conservation (cfg : RateLimiter.Config)
    (identifier scope : String) (now : ℚ) (m : RateLimiter.Buckets)
    (h1 : cfg.enabled = true) (hcap : 0 < cfg.capacity)
    (h0 : m (RateLimiter.bucket_key scope identifier) = none) :
    (∀ n : ℕ,
      (RateLimiter.acquire cfg
          (RateLimiter.acquireIter cfg identifier scope now m n)
          identifier scope now).allowed = true ↔
        (n : ℤ) < ⌊cfg.capacity⌋) ∧
    (∀ n : ℕ,
      (RateLimiter.acquire cfg
          (RateLimiter.acquireIter cfg identifier scope now m n)
          identifier scope now).allowed = true ↔
        1 ≤ (RateLimiter.refillBucket cfg now
          (RateLimiter.acquireIter cfg identifier scope now m n
            (RateLimiter.bucket_key scope identifier))).tokens) ∧
    (∀ (n : ℕ) (b : RateLimiter.Bucket),
      (RateLimiter.acquire cfg
          (RateLimiter.acquireIter cfg identifier scope now m n)
          identifier scope now).state (RateLimiter.bucket_key scope identifier)
        = some b →
      b.tokens = (RateLimiter.refillBucket cfg now
          (RateLimiter.acquireIter cfg identifier scope now m n
            (RateLimiter.bucket_key scope identifier))).tokens -
        (if (RateLimiter.acquire cfg
            (RateLimiter.acquireIter cfg identifier scope now m n)
            identifier scope now).allowed then 1 else 0)) := by
  refine ⟨?_, ?_, ?_⟩
  · intro n
    rw [RateLimiter.acquire_allowed_iff cfg _ identifier scope now h1 hcap]
    cases n with
    | zero =>
        show 1 ≤ (RateLimiter.refillBucket cfg now
            (m (RateLimiter.bucket_key scope identifier))).tokens ↔ _
        rw [h0]
        show 1 ≤ cfg.capacity ↔ _
        constructor
        · intro hC
          have hF1 : (1 : ℤ) ≤ ⌊cfg.capacity⌋ := Int.le_floor.mpr (by
            exact_mod_cast hC)
          push_cast
          omega
        · intro hlt
          have hF1 : (1 : ℤ) ≤ ⌊cfg.capacity⌋ := by push_cast at hlt; omega
          calc (1 : ℚ) ≤ ((⌊cfg.capacity⌋ : ℤ) : ℚ) := by exact_mod_cast hF1
            _ ≤ cfg.capacity := Int.floor_le _
    | succ n' =>
        rw [RateLimiter.acquireIter_same_now cfg identifier scope now m h1
          hcap h0 n']
        have hF0 : (0 : ℤ) ≤ ⌊cfg.capacity⌋ := Int.floor_nonneg.mpr hcap.le
        have hmin0 : (0 : ℤ) ≤ min ((n' : ℤ) + 1) ⌊cfg.capacity⌋ :=
          le_min (by omega) hF0
        have ht : cfg.capacity -
            ((min ((n' : ℤ) + 1) ⌊cfg.capacity⌋ : ℤ) : ℚ) ≤ cfg.capacity := by
          have : (0 : ℚ) ≤ ((min ((n' : ℤ) + 1) ⌊cfg.capacity⌋ : ℤ) : ℚ) := by
            exact_mod_cast hmin0
          linarith
        rw [RateLimiter.refill_same_now cfg _ now ht]
        dsimp only
        constructor
        · intro hge
          by_contra hnot
          have hFle' : ⌊cfg.capacity⌋ ≤ (n' : ℤ) + 1 := by
            push_cast at hnot; omega
          rw [min_eq_right hFle'] at hge
          have := Int.lt_floor_add_one cfg.capacity
          linarith
        · intro hlt
          have hlt' : (n' : ℤ) + 1 < ⌊cfg.capacity⌋ := by
            push_cast at hlt; omega
          rw [min_eq_left (by omega)]
          have hc2 : ((n' : ℤ) + 1 + 1 : ℚ) ≤ ((⌊cfg.capacity⌋ : ℤ) : ℚ) := by
            exact_mod_cast (by omega : (n' : ℤ) + 1 + 1 ≤ ⌊cfg.capacity⌋)
          have := Int.floor_le cfg.capacity
          push_cast at hc2 ⊢
          linarith
  · intro n
    exact RateLimiter.acquire_allowed_iff cfg _ identifier scope now h1 hcap
  · intro n b hb
    rw [RateLimiter.acquire_state_self cfg _ identifier scope now h1 hcap]
      at hb
    have hb' := Option.some.inj hb
    subst hb'
    rw [RateLimiter.acquire_eq_of_enabled cfg _ identifier scope now h1 hcap]
    dsimp only
    exact RateLimiter.postBucket_tokens cfg now _

/-- Closed witness for C1: a capacity-2 limiter with a fresh key admits the
very first call. -/
theorem C1_token_bucket_conservation_witness :
    (⟨true, 2, 1, 10⟩ : RateLimiter.Config).enabled = true ∧
    (0 : ℚ) < (⟨true, 2, 1, 10⟩ : RateLimiter.Config).capacity ∧
    RateLimiter.emptyBuckets (RateLimiter.bucket_key "ip" "c") = none ∧
    ((RateLimiter.acquire (⟨true, 2, 1, 10⟩ : RateLimiter.Config)
        (RateLimiter.acquireIter ⟨true, 2, 1, 10⟩ "c" "ip" 0
          RateLimiter.emptyBuckets 0) "c" "ip" 0).allowed = true ↔
      ((0 : ℕ) : ℤ) < ⌊(⟨true, 2, 1, 10⟩ : RateLimiter.Config).capacity⌋) :=
  ⟨rfl, by norm_num, rfl,
    (C1_token_bucket_conservation ⟨true, 2, 1, 10⟩ "c" "ip" 0
      RateLimiter.emptyBuckets rfl (by norm_num) rfl).1 0⟩
